import Mathlib

/-!
Shallow embedding of the Teltonika Codec 8 / Codec 8 Extended TCP server
(`src/teltonika.ts` and `src/server.ts`).

A Node.js `Buffer` is modelled as a `List Nat` of byte values.  The Node
read helpers (`readUInt8`, `readUInt16BE`, `readUInt32BE`, `readInt32BE`,
`readInt16BE`) throw a `RangeError` when any accessed index is at or past
the end of the buffer; that exceptional outcome is modelled by `Option`:
`none` means the JavaScript call throws.  A function that can only be
reached after a bounds check is still written with `Option` so that every
byte access is visibly guarded.
-/

namespace Teltonika

/-- `buf.readUInt8(off)`: one byte, throws (`none`) when `off` is out of range. -/
def readUInt8 (buf : List Nat) (off : Nat) : Option Nat :=
  buf[off]?

/-- `buf.readUInt16BE(off)`: two bytes big-endian, throws when `off + 2 > buf.length`. -/
def readUInt16BE (buf : List Nat) (off : Nat) : Option Nat := do
  let b0 ← buf[off]?
  let b1 ← buf[(off + 1)]?
  pure (b0 * 256 + b1)

/-- `buf.readUInt32BE(off)`: four bytes big-endian, throws when `off + 4 > buf.length`. -/
def readUInt32BE (buf : List Nat) (off : Nat) : Option Nat := do
  let b0 ← buf[off]?
  let b1 ← buf[(off + 1)]?
  let b2 ← buf[(off + 2)]?
  let b3 ← buf[(off + 3)]?
  pure (b0 * 16777216 + b1 * 65536 + b2 * 256 + b3)

/-- `buf.readInt32BE(off)`: four bytes big-endian interpreted as a signed 32-bit value. -/
def readInt32BE (buf : List Nat) (off : Nat) : Option Int :=
  (readUInt32BE buf off).map fun u =>
    if u < 2147483648 then (u : Int) else (u : Int) - 4294967296

/-- `buf.readInt16BE(off)`: two bytes big-endian interpreted as a signed 16-bit value. -/
def readInt16BE (buf : List Nat) (off : Nat) : Option Int :=
  (readUInt16BE buf off).map fun u =>
    if u < 32768 then (u : Int) else (u : Int) - 65536

/-- A byte is an ASCII digit character. -/
def isDigitByte (b : Nat) : Prop := 48 ≤ b ∧ b ≤ 57

instance (b : Nat) : Decidable (isDigitByte b) := by
  unfold isDigitByte; infer_instance

/-- `Buffer.toString("ascii")` keeps only the low 7 bits of each byte. -/
def asciiByte (b : Nat) : Nat := b % 128

/-- `parseImeiPacket` from `teltonika.ts`: 2-byte big-endian length prefix,
then that many ASCII bytes; the result is the decoded string (as its list of
character codes) when it matches `^\d{15,17}$`, otherwise `null` (`none`). -/
def parseImeiPacket (buf : List Nat) : Option (List Nat) :=
  if buf.length < 2 then none
  else
    match readUInt16BE buf 0 with
    | none => none
    | some len =>
      if buf.length < 2 + len then none
      else
        let imei := ((buf.drop 2).take len).map asciiByte
        if 15 ≤ imei.length ∧ imei.length ≤ 17 ∧ ∀ b ∈ imei, isDigitByte b then
          some imei
        else none

/-- `extractAvlRecordCount` from `teltonika.ts`: byte 9, or 0 when fewer
than 10 bytes are present. -/
def extractAvlRecordCount (buf : List Nat) : Nat :=
  if buf.length < 10 then 0 else buf.getD 9 0

/-- One decoded AVL record.  `timestamp` is kept as the exact millisecond
count (the source computes it exactly with `BigInt` arithmetic); longitude
and latitude are kept as the raw signed 32-bit values read from the wire
(the source divides them by `1e7` into floating point, which is not part of
any integer-level claim). -/
structure AvlRecord where
  timestamp : Nat
  priority : Nat
  longitudeRaw : Int
  latitudeRaw : Int
  altitude : Int
  angle : Nat
  satellites : Nat
  speed : Nat
deriving DecidableEq, Repr

/-- `skipCodec8Io` from `teltonika.ts`: advance past a Codec 8 IO element
block.  Each count byte is read without any bounds check, so an
out-of-range read throws (`none`). -/
def skipCodec8Io (buf : List Nat) (offset : Nat) : Option Nat := do
  let o1 := offset + 2
  let n1 ← readUInt8 buf o1
  let o2 := o1 + 1 + n1 * 2
  let n2 ← readUInt8 buf o2
  let o3 := o2 + 1 + n2 * 3
  let n4 ← readUInt8 buf o3
  let o4 := o3 + 1 + n4 * 5
  let n8 ← readUInt8 buf o4
  pure (o4 + 1 + n8 * 9)

/-- The trailing variable-length IO loop of `skipCodec8ExtendedIo`:
for each of `n` elements, skip a 2-byte id, read a 2-byte length, skip
that many value bytes. -/
def skipExtVariable (buf : List Nat) : Nat → Nat → Option Nat
  | 0, o => some o
  | n + 1, o => do
    let len ← readUInt16BE buf (o + 2)
    skipExtVariable buf n (o + 4 + len)

/-- `skipCodec8ExtendedIo` from `teltonika.ts`: advance past a Codec 8
Extended IO element block.  Count fields are 2-byte big-endian and read
without bounds checks. -/
def skipCodec8ExtendedIo (buf : List Nat) (offset : Nat) : Option Nat := do
  let o1 := offset + 4
  let n1 ← readUInt16BE buf o1
  let o2 := o1 + 2 + n1 * 3
  let n2 ← readUInt16BE buf o2
  let o3 := o2 + 2 + n2 * 4
  let n4 ← readUInt16BE buf o3
  let o4 := o3 + 2 + n4 * 6
  let n8 ← readUInt16BE buf o4
  let o5 := o4 + 2 + n8 * 10
  let nx ← readUInt16BE buf o5
  skipExtVariable buf nx (o5 + 2)

/-- The body of one iteration of the record loop in `parseAvlPacket`:
the 24 fixed-field bytes at `offset` (guarded by the caller's length
check), followed by the codec-dependent IO trailer traversal.  Returns the
record together with the offset of the next record. -/
def parseOneRecord (buf : List Nat) (codecId : Nat) (offset : Nat) :
    Option (AvlRecord × Nat) := do
  let tsHigh ← readUInt32BE buf offset
  let tsLow ← readUInt32BE buf (offset + 4)
  let priority ← readUInt8 buf (offset + 8)
  let longitude ← readInt32BE buf (offset + 9)
  let latitude ← readInt32BE buf (offset + 13)
  let altitude ← readInt16BE buf (offset + 17)
  let angle ← readUInt16BE buf (offset + 19)
  let satellites ← readUInt8 buf (offset + 21)
  let speed ← readUInt16BE buf (offset + 22)
  let next ←
    if codecId = 142 then skipCodec8ExtendedIo buf (offset + 24)
    else skipCodec8Io buf (offset + 24)
  pure (⟨tsHigh * 4294967296 + tsLow, priority, longitude, latitude,
         altitude, angle, satellites, speed⟩, next)

/-- The record loop of `parseAvlPacket`: up to `n` records starting at
`offset`.  The loop breaks (returning what was decoded so far) when fewer
than 24 bytes remain for the fixed fields; a thrown read inside the body
(`none` from `parseOneRecord`) aborts the whole parse, exactly as the
JavaScript exception discards the partially built array. -/
def parseAvlRecords (buf : List Nat) (codecId : Nat) :
    Nat → Nat → Option (List AvlRecord)
  | 0, _ => some []
  | n + 1, offset =>
    if buf.length < offset + 24 then some []
    else
      match parseOneRecord buf codecId offset with
      | none => none
      | some (r, next) => (parseAvlRecords buf codecId n next).map (r :: ·)

/-- `parseAvlPacket` from `teltonika.ts`.  Fewer than 10 bytes: empty list.
Unsupported codec identifier (byte 8 not `0x08`/`0x8E`): empty list.
Otherwise the record loop with the declared count from byte 9.  `none`
models a thrown `RangeError` escaping the function. -/
def parseAvlPacket (buf : List Nat) : Option (List AvlRecord) :=
  if buf.length < 10 then some []
  else
    let codecId := buf.getD 8 0
    if codecId = 8 ∨ codecId = 142 then
      parseAvlRecords buf codecId (buf.getD 9 0) 10
    else some []

/-- `buildAck` from `teltonika.ts`: the record count as an unsigned
big-endian 32-bit value, 4 bytes. -/
def buildAck (recordCount : Nat) : List Nat :=
  [recordCount / 16777216 % 256, recordCount / 65536 % 256,
   recordCount / 256 % 256, recordCount % 256]

/-!
The connection state machine of `server.ts`.

The per-connection mutable record `{ imei, imeiAccepted }` is
`SocketState`.  The awaited collaborator calls (`upsertDevice`,
`saveRawPacket`, `savePositions`) are modelled by an environment `Collab`
fixing each call's outcome for the chunk being handled: `Outcome.err`
means the promise rejects, which the `try`/`catch` around the whole data
handler turns into `socket.destroy()`.  The handler's externally visible
actions — socket writes, collaborator calls, and socket destruction — are
recorded in order as a list of `Event`s.
-/

/-- Result of one awaited collaborator call: resolve or reject. -/
inductive Outcome where
  | ok
  | err
deriving DecidableEq, Repr

/-- Outcomes of the collaborator calls available while handling one chunk;
`rawId` is the row id `saveRawPacket` resolves with when it succeeds. -/
structure Collab where
  upsert : Outcome
  saveRaw : Outcome
  rawId : Nat
  savePos : Outcome
deriving DecidableEq, Repr

/-- An externally visible action of the data handler, in program order. -/
inductive Event where
  | write (bytes : List Nat)
  | callUpsert (imei : List Nat)
  | callSaveRaw (imei : List Nat) (buf : List Nat)
  | callSavePositions (imei : List Nat) (records : List AvlRecord) (rawId : Nat)
  | destroy
deriving DecidableEq, Repr

/-- The per-connection mutable state of `server.ts`. -/
structure SocketState where
  imei : Option (List Nat)
  imeiAccepted : Bool
deriving DecidableEq, Repr

/-- The state a fresh connection starts in: `{ imei: null, imeiAccepted: false }`. -/
def initialState : SocketState :=
  { imei := none, imeiAccepted := false }

/-- The `socket.on("data", ...)` handler of `server.ts`, for one chunk:
phase 1 (IMEI handshake) when `imeiAccepted` is false, phase 2 (AVL data)
otherwise.  Returns the state after the chunk and the ordered list of
events.  A rejected awaited call or a thrown parse lands in the `catch`
block, which destroys the socket. -/
def handleData (st : SocketState) (co : Collab) (buf : List Nat) :
    SocketState × List Event :=
  if st.imeiAccepted = false then
    match parseImeiPacket buf with
    | none => (st, [Event.write [0], Event.destroy])
    | some imei =>
      let st2 : SocketState := { imei := some imei, imeiAccepted := true }
      match co.upsert with
      | Outcome.err => (st2, [Event.callUpsert imei, Event.destroy])
      | Outcome.ok => (st2, [Event.callUpsert imei, Event.write [1]])
  else
    match st.imei with
    | none => (st, [Event.destroy])
    | some imei =>
      match co.saveRaw with
      | Outcome.err => (st, [Event.callSaveRaw imei buf, Event.destroy])
      | Outcome.ok =>
        let ack := buildAck (extractAvlRecordCount buf)
        match parseAvlPacket buf with
        | none =>
          (st, [Event.callSaveRaw imei buf, Event.write ack, Event.destroy])
        | some records =>
          match co.savePos with
          | Outcome.err =>
            (st, [Event.callSaveRaw imei buf, Event.write ack,
                  Event.callSavePositions imei records co.rawId, Event.destroy])
          | Outcome.ok =>
            (st, [Event.callSaveRaw imei buf, Event.write ack,
                  Event.callSavePositions imei records co.rawId])

/-- States a connection can be in under the machine's own transitions:
the fresh state, closed under handling arbitrary chunks with arbitrary
collaborator outcomes. -/
inductive Reachable : SocketState → Prop where
  | init : Reachable initialState
  | step : ∀ st co buf, Reachable st → Reachable (handleData st co buf).1

/-!  Concrete sample inputs used by counterexamples and witnesses. -/

/-- A Codec 8 frame declaring one record whose buffer ends right after the
24 fixed-field bytes: 10-byte header, codec `0x08`, declared count 1, then
24 zero bytes and nothing else (34 bytes in total). -/
def truncatedFrame : List Nat := [0, 0, 0, 0, 0, 0, 0, 26, 8, 1] ++ List.replicate 24 0

/-- A complete Codec 8 frame with one all-zero record and an empty IO
element block (40 bytes). -/
def sampleFrame : List Nat :=
  [0, 0, 0, 0, 0, 0, 0, 30, 8, 1] ++ List.replicate 24 0 ++ [0, 0, 0, 0, 0, 0]

/-- Like `sampleFrame` but with timestamp words high = 1, low = 2. -/
def sampleFrameTs : List Nat :=
  [0, 0, 0, 0, 0, 0, 0, 30, 8, 1, 0, 0, 0, 1, 0, 0, 0, 2] ++
    List.replicate 16 0 ++ [0, 0, 0, 0, 0, 0]

/-- The 15 ASCII digit codes of the IMEI 356307046452013. -/
def sampleImei : List Nat := [51, 53, 54, 51, 48, 55, 48, 52, 54, 52, 53, 50, 48, 49, 51]

/-- The IMEI handshake packet carrying `sampleImei`. -/
def sampleImeiFrame : List Nat := [0, 15] ++ sampleImei

/-- The decoded all-zero record of `sampleFrame`. -/
def zeroRecord : AvlRecord := ⟨0, 0, 0, 0, 0, 0, 0, 0⟩

/-- The decoded record of `sampleFrameTs`. -/
def tsRecord : AvlRecord := ⟨4294967298, 0, 0, 0, 0, 0, 0, 0⟩

/-- A streaming-phase connection state carrying `sampleImei`. -/
def streamingState : SocketState := { imei := some sampleImei, imeiAccepted := true }

/-- A 10-byte frame whose codec identifier (byte 8) is the unsupported
value 9, declaring 5 records. -/
def badCodecFrame : List Nat := [0, 0, 0, 0, 0, 0, 0, 0, 9, 5]

end Teltonika

namespace Teltonika

/-- C1.  The data-frame decoder is claimed never to read past the buffer
end and never to throw, degrading instead to fewer records than declared.
The code violates this: on a frame whose buffer ends right after one
record's 24 fixed-field bytes, `skipCodec8Io` reads the 1-byte IO count at
index 36 of a 34-byte buffer — an out-of-bounds access on which Node's
`readUInt8` throws a `RangeError` (modelled as `none`), so `parseAvlPacket`
throws instead of returning the decoded record. -/
theorem parseAvlPacket_throws_on_truncated_trailer :
    parseAvlPacket truncatedFrame = none ∧ skipCodec8Io truncatedFrame 34 = none := by
  decide

/-- C9.  `buildAck` produces exactly 4 bytes, and reading them back as a
big-endian unsigned 32-bit integer returns the original count, for every
count in 0–255. -/
theorem buildAck_roundtrip (c : Nat) (h : c ≤ 255) :
    (buildAck c).length = 4 ∧ readUInt32BE (buildAck c) 0 = some c := by
  constructor
  · rfl
  · have h1 : readUInt32BE (buildAck c) 0 =
        some (c / 16777216 % 256 * 16777216 + c / 65536 % 256 * 65536 +
          c / 256 % 256 * 256 + c % 256) := rfl
    rw [h1, Option.some.injEq]
    omega

/-- Witness for C9 at count 255. -/
theorem buildAck_roundtrip_witness :
    (buildAck 255).length = 4 ∧ readUInt32BE (buildAck 255) 0 = some 255 :=
  buildAck_roundtrip 255 (by decide)

/-- A successful 2-byte big-endian read at `off` implies the buffer holds
at least `off + 2` bytes. -/
lemma readUInt16BE_bound (buf : List Nat) (off n : Nat)
    (h : readUInt16BE buf off = some n) : off + 2 ≤ buf.length := by
  unfold readUInt16BE at h
  cases h0 : buf[off]? with
  | none => rw [h0] at h; simp at h
  | some b0 =>
    cases h1 : buf[(off + 1)]? with
    | none => rw [h0, h1] at h; simp at h
    | some b1 =>
      have := (List.getElem?_eq_some.mp h1).1
      omega

/-- C5.  For a buffer whose 2-byte big-endian length prefix is `n`:
with fewer than `2 + n` bytes the identity decoder returns `null`; with at
least `2 + n` bytes whose next `n` bytes are ASCII digits, it returns
exactly that digit string when `15 ≤ n ≤ 17` and `null` when `n` is 14
or 18. -/
theorem parseImeiPacket_spec (buf : List Nat) (n : Nat)
    (hn : readUInt16BE buf 0 = some n) :
    (buf.length < 2 + n → parseImeiPacket buf = none)
    ∧ (2 + n ≤ buf.length →
        (∀ b ∈ (buf.drop 2).take n, isDigitByte b) →
        ((15 ≤ n ∧ n ≤ 17 → parseImeiPacket buf = some ((buf.drop 2).take n))
         ∧ ((n = 14 ∨ n = 18) → parseImeiPacket buf = none))) := by
  have hlen2 : 2 ≤ buf.length := readUInt16BE_bound buf 0 n hn
  unfold parseImeiPacket
  rw [if_neg (by omega), hn]
  dsimp only
  constructor
  · intro hlt
    rw [if_pos hlt]
  · intro hge hdig
    rw [if_neg (by omega)]
    have hmap : List.map asciiByte (List.take n (List.drop 2 buf)) =
        List.take n (List.drop 2 buf) := by
      have h' : ∀ b ∈ List.take n (List.drop 2 buf), asciiByte b = b := by
        intro b hb
        have hd := hdig b hb
        unfold isDigitByte at hd
        unfold asciiByte
        omega
      rw [List.map_congr_left h']
      simp
    have hlength : ((buf.drop 2).take n).length = n := by
      simp [List.length_take, List.length_drop]
      omega
    rw [hmap]
    constructor
    · intro ⟨h15, h17⟩
      rw [if_pos ⟨by omega, by omega, hdig⟩]
    · intro h1418
      rw [if_neg ?_]
      intro ⟨h15, h17, _⟩
      rw [hlength] at h15 h17
      omega

/-- Witness for C5 on the 15-digit sample IMEI packet. -/
theorem parseImeiPacket_spec_witness :
    parseImeiPacket sampleImeiFrame = some ((sampleImeiFrame.drop 2).take 15) :=
  ((parseImeiPacket_spec sampleImeiFrame 15 (by decide)).2 (by decide)
    (by decide)).1 (by decide)

/-- The record loop decodes at most as many records as it was asked for. -/
lemma parseAvlRecords_length (buf : List Nat) (codecId : Nat) :
    ∀ n off rs, parseAvlRecords buf codecId n off = some rs → rs.length ≤ n := by
  intro n
  induction n with
  | zero =>
    intro off rs h
    unfold parseAvlRecords at h
    obtain rfl : rs = [] := by simpa using h.symm
    simp
  | succ n ih =>
    intro off rs h
    unfold parseAvlRecords at h
    by_cases hlen : buf.length < off + 24
    · rw [if_pos hlen] at h
      obtain rfl : rs = [] := by simpa using h.symm
      simp
    · rw [if_neg hlen] at h
      cases hp : parseOneRecord buf codecId off with
      | none => rw [hp] at h; simp at h
      | some rn =>
        obtain ⟨r, next⟩ := rn
        rw [hp] at h
        dsimp only at h
        cases hrec : parseAvlRecords buf codecId n next with
        | none => rw [hrec] at h; simp at h
        | some rest =>
          rw [hrec] at h
          obtain rfl : rs = r :: rest := by simpa using h.symm
          have := ih next rest hrec
          simp
          omega

/-- C6.  Whenever `parseAvlPacket` returns a record list (rather than
throwing), its length is at most the declared record count; and
`extractAvlRecordCount` returns the byte at index 9 when at least 10 bytes
are present and 0 otherwise, so the declared count is preserved even when
decoding truncates early. -/
theorem parseAvlPacket_count (buf : List Nat) :
    (∀ rs, parseAvlPacket buf = some rs → rs.length ≤ extractAvlRecordCount buf)
    ∧ (∀ c, buf[9]? = some c → extractAvlRecordCount buf = c)
    ∧ (buf.length < 10 → extractAvlRecordCount buf = 0) := by
  refine ⟨?_, ?_, ?_⟩
  · intro rs h
    unfold parseAvlPacket at h
    unfold extractAvlRecordCount
    by_cases h10 : buf.length < 10
    · rw [if_pos h10] at h
      rw [if_pos h10]
      obtain rfl : rs = [] := by simpa using h.symm
      simp
    · rw [if_neg h10] at h
      rw [if_neg h10]
      by_cases hc : buf.getD 8 0 = 8 ∨ buf.getD 8 0 = 142
      · rw [if_pos hc] at h
        exact parseAvlRecords_length buf _ _ _ rs h
      · rw [if_neg hc] at h
        obtain rfl : rs = [] := by simpa using h.symm
        simp
  · intro c hc
    have h9 := (List.getElem?_eq_some.mp hc).1
    unfold extractAvlRecordCount
    rw [if_neg (by omega), List.getD_eq_getElem?_getD, hc]
    rfl
  · intro h10
    unfold extractAvlRecordCount
    rw [if_pos h10]

/-- Witness for C6 on the 40-byte sample frame declaring one record. -/
theorem parseAvlPacket_count_witness :
    ([zeroRecord].length ≤ extractAvlRecordCount sampleFrame)
    ∧ extractAvlRecordCount sampleFrame = 1 :=
  ⟨(parseAvlPacket_count sampleFrame).1 [zeroRecord] (by decide),
   (parseAvlPacket_count sampleFrame).2.1 1 (by decide)⟩

/-- C7.  A buffer of at least 10 bytes whose codec identifier (byte 8) is
neither `0x08` nor `0x8E` decodes to zero records without throwing, and a
streaming-phase connection handling it (with the persistence collaborators
succeeding) is not destroyed and keeps its state. -/
theorem unsupportedCodec_nonfatal (buf : List Nat) (c : Nat)
    (st : SocketState) (imei : List Nat) (co : Collab)
    (hlen : 10 ≤ buf.length) (hc : buf[8]? = some c)
    (h8 : c ≠ 8) (h8e : c ≠ 142)
    (hacc : st.imeiAccepted = true) (him : st.imei = some imei)
    (hraw : co.saveRaw = Outcome.ok) (hpos : co.savePos = Outcome.ok) :
    parseAvlPacket buf = some []
    ∧ Event.destroy ∉ (handleData st co buf).2
    ∧ (handleData st co buf).1 = st := by
  have hgd : buf.getD 8 0 = c := by
    rw [List.getD_eq_getElem?_getD, hc]; rfl
  have hparse : parseAvlPacket buf = some [] := by
    unfold parseAvlPacket
    rw [if_neg (by omega)]
    rw [hgd]
    rw [if_neg (by simp [h8, h8e])]
  refine ⟨hparse, ?_, ?_⟩
  · unfold handleData
    rw [hacc]
    simp only [Bool.true_eq_false, if_false, him, hraw, hparse, hpos]
    simp
  · unfold handleData
    rw [hacc]
    simp only [Bool.true_eq_false, if_false, him, hraw, hparse, hpos]

/-- Witness for C7 on a 10-byte frame with codec identifier 9. -/
theorem unsupportedCodec_nonfatal_witness :
    parseAvlPacket badCodecFrame = some []
    ∧ Event.destroy ∉
        (handleData streamingState (Collab.mk Outcome.ok Outcome.ok 7 Outcome.ok) badCodecFrame).2
    ∧ (handleData streamingState (Collab.mk Outcome.ok Outcome.ok 7 Outcome.ok) badCodecFrame).1
      = streamingState :=
  unsupportedCodec_nonfatal badCodecFrame 9 streamingState sampleImei _
    (by decide) (by decide) (by decide) (by decide) rfl rfl rfl rfl

/-- C3 counterexample.  The claim says the accept byte (0x01) is sent even
when `upsertDevice` fails; in the code the awaited rejection jumps to the
`catch` block before `socket.write`, so no accept byte is written and the
socket is destroyed. -/
theorem acceptByte_counterexample :
    (handleData initialState (Collab.mk Outcome.err Outcome.ok 7 Outcome.ok) sampleImeiFrame).2
      = [Event.callUpsert sampleImei, Event.destroy]
    ∧ Event.write [1] ∉
        (handleData initialState (Collab.mk Outcome.err Outcome.ok 7 Outcome.ok) sampleImeiFrame).2 := by
  decide

/-- C3 as amended.  When the identity frame decodes, the state is marked
accepted with that identity and `upsertDevice` is called; the accept byte
is sent only if that call succeeds — if it rejects, the handler's catch
destroys the connection without writing the accept byte. -/
theorem acceptByte_requires_upsert (st : SocketState) (co : Collab)
    (buf : List Nat) (imei : List Nat)
    (hacc : st.imeiAccepted = false) (hp : parseImeiPacket buf = some imei) :
    (handleData st co buf).1 = { imei := some imei, imeiAccepted := true }
    ∧ (handleData st co buf).2
      = Event.callUpsert imei ::
        (if co.upsert = Outcome.ok then [Event.write [1]] else [Event.destroy]) := by
  unfold handleData
  rw [hacc]
  cases hu : co.upsert <;> simp [hp, hu]

/-- Witness for the amended C3 on the sample IMEI packet with a
succeeding registrar. -/
theorem acceptByte_requires_upsert_witness :
    (handleData initialState (Collab.mk Outcome.ok Outcome.ok 7 Outcome.ok) sampleImeiFrame).1
      = { imei := some sampleImei, imeiAccepted := true }
    ∧ (handleData initialState (Collab.mk Outcome.ok Outcome.ok 7 Outcome.ok) sampleImeiFrame).2
      = Event.callUpsert sampleImei ::
        (if (Collab.mk Outcome.ok Outcome.ok 7 Outcome.ok).upsert = Outcome.ok
         then [Event.write [1]] else [Event.destroy]) :=
  acceptByte_requires_upsert initialState _ sampleImeiFrame sampleImei rfl (by decide)

/-- C2 counterexample.  The claim says a `savePositions` failure after the
raw chunk was persisted and the acknowledgement sent leaves the connection
open; in the code the awaited rejection lands in the `catch` block, which
destroys the socket. -/
theorem savePositions_failure_counterexample :
    Event.destroy ∈
      (handleData streamingState (Collab.mk Outcome.ok Outcome.ok 7 Outcome.err) sampleFrame).2 := by
  decide

/-- C2 as amended.  A `savePositions` failure after successful raw
persistence and acknowledgement is fatal: the handler destroys the socket
(the already-sent acknowledgement stands, and the connection state is
unchanged). -/
theorem savePositions_failure_destroys (st : SocketState) (co : Collab)
    (buf imei : List Nat) (records : List AvlRecord)
    (hacc : st.imeiAccepted = true) (him : st.imei = some imei)
    (hraw : co.saveRaw = Outcome.ok) (hp : parseAvlPacket buf = some records)
    (hpos : co.savePos = Outcome.err) :
    (handleData st co buf).2
      = [Event.callSaveRaw imei buf,
         Event.write (buildAck (extractAvlRecordCount buf)),
         Event.callSavePositions imei records co.rawId, Event.destroy]
    ∧ (handleData st co buf).1 = st := by
  unfold handleData
  rw [hacc]
  simp [him, hraw, hp, hpos]

/-- Witness for the amended C2 on the 40-byte sample frame. -/
theorem savePositions_failure_destroys_witness :
    (handleData streamingState (Collab.mk Outcome.ok Outcome.ok 7 Outcome.err) sampleFrame).2
      = [Event.callSaveRaw sampleImei sampleFrame,
         Event.write (buildAck (extractAvlRecordCount sampleFrame)),
         Event.callSavePositions sampleImei [zeroRecord] 7, Event.destroy]
    ∧ (handleData streamingState (Collab.mk Outcome.ok Outcome.ok 7 Outcome.err) sampleFrame).1
      = streamingState :=
  savePositions_failure_destroys streamingState _ sampleFrame sampleImei [zeroRecord]
    rfl rfl rfl (by decide) rfl

/-- C4.  In the streaming phase, if raw-chunk persistence fails the event
trace is exactly the persistence attempt followed by socket destruction —
no acknowledgement (no write at all) is sent; if it succeeds, the 4-byte
acknowledgement write is the event immediately after the successful
persistence call. -/
theorem ackAfterRawPersist (st : SocketState) (co : Collab) (buf imei : List Nat)
    (hacc : st.imeiAccepted = true) (him : st.imei = some imei) :
    (co.saveRaw = Outcome.err →
      (handleData st co buf).2 = [Event.callSaveRaw imei buf, Event.destroy])
    ∧ (co.saveRaw = Outcome.ok →
      ∃ tail, (handleData st co buf).2
        = Event.callSaveRaw imei buf ::
          Event.write (buildAck (extractAvlRecordCount buf)) :: tail)
    ∧ (buildAck (extractAvlRecordCount buf)).length = 4 := by
  refine ⟨?_, ?_, rfl⟩
  · intro hraw
    unfold handleData
    rw [hacc]
    simp [him, hraw]
  · intro hraw
    unfold handleData
    rw [hacc]
    cases hp : parseAvlPacket buf with
    | none => exact ⟨[Event.destroy], by simp [him, hraw, hp]⟩
    | some records =>
      cases hpos : co.savePos with
      | err =>
        exact ⟨[Event.callSavePositions imei records co.rawId, Event.destroy],
          by simp [him, hraw, hp, hpos]⟩
      | ok =>
        exact ⟨[Event.callSavePositions imei records co.rawId],
          by simp [him, hraw, hp, hpos]⟩

/-- Witness for C4: a failing raw persistence on the sample frame yields
exactly the persistence attempt and the destroy, with no acknowledgement. -/
theorem ackAfterRawPersist_witness :
    (handleData streamingState (Collab.mk Outcome.ok Outcome.err 7 Outcome.ok) sampleFrame).2
      = [Event.callSaveRaw sampleImei sampleFrame, Event.destroy] :=
  (ackAfterRawPersist streamingState _ sampleFrame sampleImei rfl rfl).1 rfl

/-- A successfully decoded record carries the timestamp reconstructed from
the two 32-bit words at its own start offset. -/
lemma parseOneRecord_timestamp (buf : List Nat) (codecId off : Nat)
    (r : AvlRecord) (nxt : Nat)
    (h : parseOneRecord buf codecId off = some (r, nxt)) :
    ∃ hi lo, readUInt32BE buf off = some hi
      ∧ readUInt32BE buf (off + 4) = some lo
      ∧ r.timestamp = hi * 4294967296 + lo := by
  simp only [parseOneRecord, bind, Option.bind_eq_some, pure, Option.some.injEq,
    Prod.mk.injEq] at h
  obtain ⟨hi, hhi, lo, hlo, rest⟩ := h
  refine ⟨hi, lo, hhi, hlo, ?_⟩
  obtain ⟨p, _, lon, _, lat, _, alt, _, ang, _, sat, _, spd, _, hfin⟩ := rest
  split at hfin <;>
  · obtain ⟨nx2, _, heq⟩ := Option.bind_eq_some.mp hfin
    have hr : r = ⟨hi * 4294967296 + lo, p, lon, lat, alt, ang, sat, spd⟩ :=
      (congrArg Prod.fst (Option.some.inj heq)).symm
    rw [hr]

/-- Every record produced by the record loop gets its timestamp from the
two 32-bit big-endian words at some in-bounds offset. -/
lemma parseAvlRecords_timestamp (buf : List Nat) (codecId : Nat) :
    ∀ n off rs, parseAvlRecords buf codecId n off = some rs →
      ∀ r ∈ rs, ∃ o hi lo, o + 24 ≤ buf.length
        ∧ readUInt32BE buf o = some hi
        ∧ readUInt32BE buf (o + 4) = some lo
        ∧ r.timestamp = hi * 4294967296 + lo := by
  intro n
  induction n with
  | zero =>
    intro off rs h
    unfold parseAvlRecords at h
    obtain rfl : rs = [] := by simpa using h.symm
    simp
  | succ n ih =>
    intro off rs h
    unfold parseAvlRecords at h
    by_cases hlen : buf.length < off + 24
    · rw [if_pos hlen] at h
      obtain rfl : rs = [] := by simpa using h.symm
      simp
    · rw [if_neg hlen] at h
      cases hp : parseOneRecord buf codecId off with
      | none => rw [hp] at h; simp at h
      | some rn =>
        obtain ⟨r0, next⟩ := rn
        rw [hp] at h
        dsimp only at h
        cases hrec : parseAvlRecords buf codecId n next with
        | none => rw [hrec] at h; simp at h
        | some rest =>
          rw [hrec] at h
          obtain rfl : rs = r0 :: rest := by simpa using h.symm
          intro r hr
          rcases List.mem_cons.mp hr with hr0 | hrest
          · subst hr0
            obtain ⟨hi, lo, hhi, hlo, hts⟩ :=
              parseOneRecord_timestamp buf codecId off r next hp
            exact ⟨off, hi, lo, by omega, hhi, hlo, hts⟩
          · exact ih next rest hrec r hrest

/-- C8.  Every record decoded by `parseAvlPacket` has a timestamp equal to
`high * 2^32 + low`, where `high` and `low` are the two consecutive 32-bit
big-endian words read from the record's first 8 bytes (high word first, at
the record's start offset, which lies within the buffer). -/
theorem avlTimestamp_from_words (buf : List Nat) (rs : List AvlRecord)
    (h : parseAvlPacket buf = some rs) (r : AvlRecord) (hr : r ∈ rs) :
    ∃ o hi lo, o + 24 ≤ buf.length
      ∧ readUInt32BE buf o = some hi
      ∧ readUInt32BE buf (o + 4) = some lo
      ∧ r.timestamp = hi * 4294967296 + lo := by
  unfold parseAvlPacket at h
  by_cases h10 : buf.length < 10
  · rw [if_pos h10] at h
    obtain rfl : rs = [] := by simpa using h.symm
    simp at hr
  · rw [if_neg h10] at h
    by_cases hc : buf.getD 8 0 = 8 ∨ buf.getD 8 0 = 142
    · rw [if_pos hc] at h
      exact parseAvlRecords_timestamp buf _ _ _ rs h r hr
    · rw [if_neg hc] at h
      obtain rfl : rs = [] := by simpa using h.symm
      simp at hr

/-- Witness for C8 on the sample frame with timestamp words 1 and 2. -/
theorem avlTimestamp_from_words_witness :
    ∃ o hi lo, o + 24 ≤ sampleFrameTs.length
      ∧ readUInt32BE sampleFrameTs o = some hi
      ∧ readUInt32BE sampleFrameTs (o + 4) = some lo
      ∧ tsRecord.timestamp = hi * 4294967296 + lo :=
  avlTimestamp_from_words sampleFrameTs [tsRecord] (by decide) tsRecord (by decide)

/-- One step of the machine either leaves the state untouched or moves it
to an accepted state with a decoded identity. -/
lemma handleData_fst (st : SocketState) (co : Collab) (buf : List Nat) :
    (handleData st co buf).1 = st
    ∨ ∃ i, (handleData st co buf).1 = { imei := some i, imeiAccepted := true } := by
  unfold handleData
  by_cases hacc : st.imeiAccepted = false
  · rw [if_pos hacc]
    cases hp : parseImeiPacket buf with
    | none => left; rfl
    | some imei =>
      dsimp only
      cases co.upsert with
      | err => right; exact ⟨imei, rfl⟩
      | ok => right; exact ⟨imei, rfl⟩
  · rw [if_neg hacc]
    left
    cases st.imei with
    | none => rfl
    | some imei =>
      dsimp only
      cases co.saveRaw with
      | err => rfl
      | ok =>
        cases parseAvlPacket buf with
        | none => rfl
        | some records =>
          cases co.savePos with
          | err => rfl
          | ok => rfl

/-- C10.  In every state reachable under the machine's own transitions,
the handshake-completed flag implies the identity is present — and then
every chunk's handling begins with the raw-persistence call for that
identity, so the streaming-phase protocol-violation branch (which would
emit a bare `destroy` as its first and only event) is unreachable. -/
theorem imeiAccepted_implies_imei (st : SocketState) (h : Reachable st)
    (hacc : st.imeiAccepted = true) :
    ∃ i, st.imei = some i
      ∧ ∀ co buf, ((handleData st co buf).2).head? = some (Event.callSaveRaw i buf) := by
  revert hacc
  induction h with
  | init =>
    intro hacc
    simp [initialState] at hacc
  | step st' co buf hst ih =>
    intro hacc
    rcases handleData_fst st' co buf with heq | ⟨i, heq⟩
    · rw [heq] at hacc ⊢
      exact ih hacc
    · rw [heq] at hacc ⊢
      refine ⟨i, rfl, ?_⟩
      intro co' buf'
      unfold handleData
      rw [if_neg (by simp)]
      dsimp only
      cases co'.saveRaw with
      | err => rfl
      | ok =>
        cases parseAvlPacket buf' with
        | none => rfl
        | some records =>
          cases co'.savePos with
          | err => rfl
          | ok => rfl

/-- Witness for C10 at the state reached after one successful handshake. -/
theorem imeiAccepted_implies_imei_witness :
    ∃ i, ((handleData initialState (Collab.mk Outcome.ok Outcome.ok 7 Outcome.ok)
        sampleImeiFrame).1).imei = some i
      ∧ ∀ co buf,
          ((handleData (handleData initialState (Collab.mk Outcome.ok Outcome.ok 7 Outcome.ok)
            sampleImeiFrame).1 co buf).2).head? = some (Event.callSaveRaw i buf) :=
  imeiAccepted_implies_imei _
    (Reachable.step _ _ _ Reachable.init) (by decide)

end Teltonika
